import Mathlib

/-!
Shallow embedding of the scene-synchronization core of `bioviz`
(files `bioviz/__init__.py`, `bioviz/biorbd_vtk.py`,
`bioviz/analyses/c3d_editor_analyses.py`), together with theorems
settling the specification claims about it.

Machine integers are modelled as `Int`/`Nat`; Python floats that only
carry exact frame/time arithmetic are modelled as `ℚ`.
-/

namespace Bioviz

/-! ## Trim bounds (`Viz.set_movement_first_frame` / `Viz.set_movement_last_frame`) -/

/-- The playback-trim part of the `Viz` state: `movement_first_frame` and
`movement_last_frame` (the slider shades only mirror these values). -/
structure TrimState where
  movement_first_frame : Int
  movement_last_frame : Int
  deriving Repr, DecidableEq

/-- Embedding of `Viz.set_movement_first_frame` (`bioviz/__init__.py`):
`if frame >= self.movement_last_frame: frame = self.movement_last_frame`,
then `self.movement_first_frame = frame`. -/
def set_movement_first_frame (s : TrimState) (frame : Int) : TrimState :=
  let frame := if frame ≥ s.movement_last_frame then s.movement_last_frame else frame
  { s with movement_first_frame := frame }

/-- Embedding of `Viz.set_movement_last_frame` (`bioviz/__init__.py`):
`if frame <= self.movement_first_frame: frame = self.movement_first_frame`,
then `self.movement_last_frame = frame`. -/
def set_movement_last_frame (s : TrimState) (frame : Int) : TrimState :=
  let frame := if frame ≤ s.movement_first_frame then s.movement_first_frame else frame
  { s with movement_last_frame := frame }

/-! ## Animation tick (`Viz.update`) -/

/-- The playback part of the `Viz` state relevant to one animation tick.
`slider_min`/`slider_max` are the Qt slider bounds (`setMinimum(1)` /
`setMaximum(total frames)` in `_set_movement_slider`); `QSlider.setValue`
clamps to them. -/
structure AnimState where
  slider_min : Int
  slider_max : Int
  movement_first_frame : Int
  movement_last_frame : Int
  cursor : Int
  deriving Repr, DecidableEq

/-- `QSlider.setValue` clamps the requested value into `[min, max]`. -/
def sliderSetValue (s : AnimState) (v : Int) : AnimState :=
  { s with cursor := max s.slider_min (min s.slider_max v) }

/-- Embedding of the cursor-advancing part of `Viz.update`
(`bioviz/__init__.py`):
`setValue(value + 1)`; then
`if value >= movement_last_frame: setValue(movement_first_frame + 1)`. -/
def update_tick (s : AnimState) : AnimState :=
  let s := sliderSetValue s (s.cursor + 1)
  if s.cursor ≥ s.movement_last_frame then
    sliderSetValue s (s.movement_first_frame + 1)
  else s

/-! ## Pose setting (`Viz.set_q`) -/

/-- The shape information of the argument `Q` after the
`isinstance(Q, (tuple, list))` conversion at the top of `Viz.set_q`:
whether it is a numpy `ndarray`, its number of dimensions and its
leading dimension. -/
structure QInput where
  is_ndarray : Bool
  ndim : Nat
  shape0 : Nat
  deriving Repr, DecidableEq

/-- Embedding of the validation guard of `Viz.set_q`
(`bioviz/__init__.py`):
`if not isinstance(Q, np.ndarray) and len(Q.shape) > 1 and Q.shape[0] != self.nQ`. -/
def set_q_guard (nQ : Nat) (Q : QInput) : Bool :=
  (!Q.is_ndarray) && decide (Q.ndim > 1) && decide (Q.shape0 ≠ nQ)

/-- Embedding of `Viz.set_q`: if the guard fires, a `TypeError` is raised
and nothing is updated; otherwise the whole per-pose scene update is
applied (abstracted here as the returned value `true` = "scene updated"). -/
def set_q (nQ : Nat) (Q : QInput) : Except String Bool :=
  if set_q_guard nQ Q then
    Except.error "TypeError: Q should be a column vector"
  else
    Except.ok true

/-! ## Event ledger (`Viz.set_event`, `Viz.select_event`,
`C3dEditorAnalyses._select_event`) -/

/-- One slot of `Viz.events`: the stored frame (`-1` = unset sentinel)
and name.  (The `marker` rectangle only mirrors `frame`.) -/
structure Event where
  frame : Int
  name : String
  deriving Repr, DecidableEq

/-- The event-ledger part of the `Viz` state: the fixed-capacity slot
list `events` (allocated once, `n_max_events` long) and the high-water
mark `last_event_index` (starts at `-1`). -/
structure EventLedger where
  events : List Event
  last_event_index : Int
  deriving Repr, DecidableEq

/-- Python list indexing `events[i]` for `i : Int` (negative indices wrap
from the end); `none` when out of range, which in Python raises
`IndexError: list index out of range`. -/
def pyGet (l : List Event) (i : Int) : Option Event :=
  if 0 ≤ i then l[i.toNat]?
  else if 0 ≤ i + l.length then l[(i + l.length).toNat]?
  else none

/-- Python list assignment `events[i] = e` at integer index `i` (negative
indices wrap); `none` when out of range. -/
def pySet (l : List Event) (i : Int) (e : Event) : Option (List Event) :=
  if 0 ≤ i then (if i.toNat < l.length then some (l.set i.toNat e) else none)
  else if 0 ≤ i + l.length then some (l.set (i + l.length).toNat e)
  else none

/-- Embedding of `Viz.set_event(frame, name, index=None)`
(`bioviz/__init__.py`).  Returns the state at exit together with the
raised error, if any: in Python the mutation of `last_event_index` done
before an `IndexError` from `self.events[index]` persists, so the state
is returned even on error. -/
def set_event (s : EventLedger) (frame : Int) (name : String)
    (index : Option Int) : EventLedger × Option String :=
  match index with
  | none =>
    -- `self.last_event_index += 1; index = self.last_event_index`
    let last := s.last_event_index + 1
    -- `index > self.last_event_index` is now false; `event = self.events[index]`
    match pySet s.events last ⟨frame, name⟩ with
    | some evts => ({ events := evts, last_event_index := last }, none)
    | none => ({ s with last_event_index := last }, some "IndexError: list index out of range")
  | some i =>
    if i > s.last_event_index then
      (s, some "IndexError: list index out of range")
    else
      match pySet s.events i ⟨frame, name⟩ with
      | some evts => ({ s with events := evts }, none)
      | none => (s, some "IndexError: list index out of range")

/-- Embedding of `Viz.select_event(index)` (`bioviz/__init__.py`): the
index is normalised (`None` or past the high-water mark becomes `-1`),
slot `i` is marked selected iff `i == index`, and `self.events[index]`
is returned (Python indexing: `-1` is the last slot). -/
def select_event (s : EventLedger) (index : Option Int) :
    Int × Option Event :=
  let index := match index with
    | none => -1
    | some i => if i > s.last_event_index then -1 else i
  (index, pyGet s.events index)

/-- Embedding of the cursor arithmetic of
`C3dEditorAnalyses._select_event(step)`
(`bioviz/analyses/c3d_editor_analyses.py`):
`current += step; if current < -1: current = last_event_index;
if current > last_event_index: current = -1`. -/
def select_event_step (last_event_index current step : Int) : Int :=
  let c := current + step
  let c := if c < -1 then last_event_index else c
  if c > last_event_index then -1 else c

/-! ## Event export (`C3dEditorAnalyses.convert_event_for_c3d`) -/

/-- The context/label split of one event name in
`convert_event_for_c3d`: `split_name = name.split(" ")`; if it has more
than one part and the first is `left`/`right` case-insensitively, that
part is the context and the rest the label, else the context is empty
and the label re-joins all parts. -/
def eventContextLabel (name : String) : String × String :=
  let split_name := name.splitOn " "
  if split_name.length > 1 ∧
      ((split_name.headD "").toLower = "left" ∨ (split_name.headD "").toLower = "right") then
    (split_name.headD "", " ".intercalate split_name.tail)
  else
    ("", " ".intercalate split_name)

/-- The loop of `C3dEditorAnalyses.convert_event_for_c3d`
(`bioviz/analyses/c3d_editor_analyses.py`): events whose `frame` is the
unset sentinel `-1` are skipped (`continue`); for the others the
context/label pair and the time `(frame + first_frame) * 1 / frame_rate`
are appended.  Python float division is modelled over `ℚ`. -/
def convertEventLoop (events : List Event) (first_frame : Int)
    (frame_rate : ℚ) : List String × List String × List ℚ :=
  match events with
  | [] => ([], [], [])
  | e :: rest =>
    let (cs, ls, ts) := convertEventLoop rest first_frame frame_rate
    if e.frame = -1 then (cs, ls, ts)
    else
      let (context, label) := eventContextLabel e.name
      (context :: cs, label :: ls, ((e.frame : ℚ) + (first_frame : ℚ)) * 1 / frame_rate :: ts)

/-- Embedding of `C3dEditorAnalyses.convert_event_for_c3d(frame_rate)`:
`first_frame = movement_first_frame + first_frame_c3d`, the loop above,
and the final `times = [[0] * len(times), times]` (a row of zeros is
prepended, "as Nexus does"). -/
def convert_event_for_c3d (events : List Event)
    (movement_first_frame first_frame_c3d : Int) (frame_rate : ℚ) :
    List String × List String × (List ℚ × List ℚ) :=
  let first_frame := movement_first_frame + first_frame_c3d
  let (contexts, labels, times) := convertEventLoop events first_frame frame_rate
  (contexts, labels, (List.replicate times.length 0, times))

/-! ## Snapshot path handling (`Viz.snapshot`, `posixpath.splitext`) -/

/-- `str.rfind` of a single character: the largest index at which `c`
occurs in `p`, else `-1` (accumulator form mirroring a left scan). -/
def rfindAux (p : List Char) (c : Char) (i best : Int) : Int :=
  match p with
  | [] => best
  | x :: xs => rfindAux xs c (i + 1) (if x = c then i else best)

/-- `p.rfind(c)`: last index of `c` in `p`, or `-1`. -/
def rfind (p : List Char) (c : Char) : Int :=
  rfindAux p c 0 (-1)

/-- Embedding of CPython `posixpath.splitext` (called by
`os.path.splitext` in `Viz.snapshot`): with `sepIndex = p.rfind('/')`
and `dotIndex = p.rfind('.')`, the path splits at `dotIndex` when
`dotIndex > sepIndex` and some character strictly between them is not a
dot (the `while filenameIndex < dotIndex` loop, which skips the leading
dots of the basename); otherwise the extension is empty. -/
def splitext (p : List Char) : List Char × List Char :=
  let sepIndex := rfind p '/'
  let dotIndex := rfind p '.'
  if dotIndex > sepIndex ∧
      (((p.drop (sepIndex + 1).toNat).take (dotIndex - (sepIndex + 1)).toNat).any
        (fun ch => ch ≠ '.')) then
    (p.take dotIndex.toNat, p.drop dotIndex.toNat)
  else
    (p, [])

/-- Embedding of `Viz.snapshot(save_path)` (`bioviz/__init__.py`):
split off the extension, default an empty extension to `".png"`, raise
`NotImplementedError` for any other extension, else write to
`file_name + extension`.  The returned value is the path handed to
`vtk_window.snapshot`. -/
def snapshot (save_path : List Char) : Except String (List Char) :=
  let (file_name, extension) := splitext save_path
  let extension := if extension = [] then ".png".toList else extension
  if extension ≠ ".png".toList then
    Except.error "NotImplementedError: The only snapshot format implemented is PNG"
  else
    Except.ok (file_name ++ extension)

/-! ## VTK marker collection (`VtkModel.new_marker_set` /
`VtkModel.update_markers`) -/

/-- A vertex/coordinate value.  `nan` is the NaN placeholder the code
writes for hidden entities; spatial coordinates are abstracted to
integer triples. -/
inductive Val where
  | nan : Val
  | pt (x y z : Int) : Val
  deriving Repr, DecidableEq

/-- A one-call geometry batch of markers (a pyomeca `Markers3d`, always
of rank 3 `(axis, channel, time)`): per-channel positions of the first
frame, and the size of the time dimension.  `markers.channel.size`
is `pos.length` and `markers.shape[2]` is `nframes`. -/
structure MarkersBatch where
  pos : List Val
  nframes : Nat
  deriving Repr, DecidableEq

/-- A marker render primitive (a `vtkActor` and its sphere-source
buffer).  `id` stands for the actor's object identity, so that
recreation (fresh actors) is distinguishable from in-place overwrite. -/
structure Actor where
  id : Nat
  center : Val
  radius : ℚ
  opacity : ℚ
  deriving Repr, DecidableEq

/-- The marker-collection part of the `VtkModel` state. `next_actor_id`
is the supply of fresh actor identities. -/
structure VtkMarkersState where
  markers : MarkersBatch
  markers_actors : List Actor
  markers_size : ℚ
  markers_opacity : ℚ
  next_actor_id : Nat
  deriving Repr, DecidableEq

/-- The overwrite loop of `VtkModel.update_markers`: for each existing
actor `i`, set color/opacity and rebuild its sphere source at
`markers[0:3, i]` with radius `markers_size`.  (The code indexes
`markers` by the actor index; on the in-place path both counts are
equal, so the `getD` default is never used.) -/
def overwriteActorsAux (pos : List Val) (size opacity : ℚ) (i : Nat) :
    List Actor → List Actor
  | [] => []
  | a :: rest =>
    { a with center := pos.getD i Val.nan, radius := size, opacity := opacity } ::
      overwriteActorsAux pos size opacity (i + 1) rest

/-- Embedding of `VtkModel.new_marker_set(markers)`
(`bioviz/biorbd_vtk.py`): guard against multi-frame batches, store the
batch, drop every previous actor, create one fresh actor per channel,
then run `update_markers(self.markers)` — which now takes the
equal-count in-place path and fills the buffers. -/
def new_marker_set (s : VtkMarkersState) (m : MarkersBatch) :
    VtkMarkersState × Option String :=
  if m.nframes > 1 then (s, some "IndexError: Markers should be from one frame only")
  else
    let fresh := (List.range m.pos.length).map
      (fun i => ({ id := s.next_actor_id + i, center := Val.nan, radius := 0,
                   opacity := 0 } : Actor))
    ({ s with
        markers := m
        markers_actors := overwriteActorsAux m.pos s.markers_size s.markers_opacity 0 fresh
        next_actor_id := s.next_actor_id + m.pos.length }, none)

/-- Embedding of `VtkModel.update_markers(markers)`
(`bioviz/biorbd_vtk.py`): raise for a multi-frame batch; recreate via
`new_marker_set` when the channel count differs from the stored one;
otherwise store the batch and overwrite every actor's buffers in
place. -/
def update_markers (s : VtkMarkersState) (m : MarkersBatch) :
    VtkMarkersState × Option String :=
  if m.nframes > 1 then (s, some "IndexError: Markers should be from one frame only")
  else if m.pos.length ≠ s.markers.pos.length then new_marker_set s m
  else
    ({ s with
        markers := m
        markers_actors := overwriteActorsAux m.pos s.markers_size s.markers_opacity 0
          s.markers_actors }, none)

/-! ## VTK mesh collection (`VtkModel.new_mesh_set` /
`VtkModel.update_mesh`) -/

/-- One mesh of a batch (a `bioviz.mesh.Mesh`, rank 3): its vertex
values (`channel` dimension) and the size of its time dimension. -/
structure MeshB where
  verts : List Val
  nframes : Nat
  deriving Repr, DecidableEq

/-- A mesh render primitive (`vtkActor` with its poly-data points). -/
structure MActor where
  id : Nat
  points : List Val
  deriving Repr, DecidableEq

/-- The mesh-collection part of the `VtkModel` state. -/
structure VtkMeshState where
  all_meshes : List MeshB
  mesh_actors : List MActor
  next_mesh_id : Nat
  deriving Repr, DecidableEq

/-- The creation loop of `VtkModel.new_mesh_set`: meshes are turned into
actors in order; the first mesh whose time dimension is not 1 raises
`IndexError` and leaves the actors built so far in place. -/
def newMeshLoop (next_id i : Nat) : List MeshB → List MActor × Option String
  | [] => ([], none)
  | m :: rest =>
    if m.nframes ≠ 1 then ([], some "IndexError: Mesh should be from one frame only")
    else
      let (acts, err) := newMeshLoop next_id (i + 1) rest
      (({ id := next_id + i, points := m.verts } : MActor) :: acts, err)

/-- Embedding of `VtkModel.new_mesh_set(all_meshes)`
(`bioviz/biorbd_vtk.py`): `self.all_meshes` is assigned and all previous
actors removed *before* the per-mesh frame check, so a multi-frame mesh
raises with the collection already partially rebuilt.  On success the
trailing `self.update_mesh(self.all_meshes)` takes the in-place path and
rewrites the same points. -/
def new_mesh_set (s : VtkMeshState) (ms : List MeshB) :
    VtkMeshState × Option String :=
  let (acts, err) := newMeshLoop s.next_mesh_id 0 ms
  ({ all_meshes := ms, mesh_actors := acts,
     next_mesh_id := s.next_mesh_id + acts.length }, err)

/-- Result of the guard loop at the top of `VtkModel.update_mesh`. -/
inductive MeshGuard where
  | frameErr : MeshGuard
  | recreate : MeshGuard
  | ok : MeshGuard
  deriving Repr, DecidableEq

/-- The guard loop of `VtkModel.update_mesh`: for each incoming mesh `i`
in order, a time dimension ≠ 1 raises; else a missing or size-changed
stored mesh at `i` triggers recreation. -/
def meshGuardLoop (all : List MeshB) (i : Nat) : List MeshB → MeshGuard
  | [] => MeshGuard.ok
  | m :: rest =>
    if m.nframes ≠ 1 then MeshGuard.frameErr
    else
      match all[i]? with
      | none => MeshGuard.recreate
      | some mi =>
        if m.verts.length ≠ mi.verts.length then MeshGuard.recreate
        else meshGuardLoop all (i + 1) rest

/-- The overwrite loop of `VtkModel.update_mesh`: actor `i` gets the
points of incoming mesh `i`.  (The code loops over the new
`self.all_meshes`; the guard loop guarantees it is no longer than the
stored list, whose length equals the actor count on every reachable
state, so actors beyond the batch keep their points.) -/
def overwriteMeshPointsAux (ms : List MeshB) (i : Nat) : List MActor → List MActor
  | [] => []
  | a :: rest =>
    (match ms[i]? with
      | some m => { a with points := m.verts }
      | none => a) :: overwriteMeshPointsAux ms (i + 1) rest

/-- Embedding of `VtkModel.update_mesh(all_meshes)`
(`bioviz/biorbd_vtk.py`): run the guard loop; raise on a multi-frame
mesh (before any mutation), recreate through `new_mesh_set` on a count
change, else store the batch and overwrite the actors' points in
place. -/
def update_mesh (s : VtkMeshState) (ms : List MeshB) :
    VtkMeshState × Option String :=
  match meshGuardLoop s.all_meshes 0 ms with
  | MeshGuard.frameErr => (s, some "IndexError: Mesh should be from one frame only")
  | MeshGuard.recreate => new_mesh_set s ms
  | MeshGuard.ok =>
    ({ s with all_meshes := ms,
              mesh_actors := overwriteMeshPointsAux ms 0 s.mesh_actors }, none)

/-! ## Segment toggling (`Viz.toggle_segments`, `Viz._set_markers_from_q`,
`Viz._set_meshes_from_q`) -/

/-- The parts of the biorbd model and of the kinematics provider that the
per-pose update reads: `model.nbMarkers(s)` per segment (`nbSegment` is
the list length), the flattened marker positions
`Markers.get_data(Q, compute_kin=False)` at the current `Q`, and the
per-segment mesh vertices `meshPointsInMatrix.get_data(Q, ...)`. -/
structure SegModel where
  markerCounts : List Nat
  markerKin : List Val
  meshKin : List (List Val)
  deriving Repr, DecidableEq

/-- The slice of the `Viz` state that `toggle_segments` touches. -/
structure VizState where
  show_segment_is_on : List Bool
  idx_markers_to_remove : List Nat
  markers : List Val
  mesh : List (List Val)
  vtk_markers : VtkMarkersState
  vtk_mesh : VtkMeshState
  deriving Repr, DecidableEq

/-- The marker-index loop of `Viz.toggle_segments`: walking the segments
with a running `offset_marker`, the indices
`range(offset_marker, offset_marker + nb_markers)` of every hidden
segment are collected. -/
def idxMarkersToRemoveLoop : List Nat → List Bool → Nat → List Nat
  | [], _, _ => []
  | nb :: cs, shows, offset =>
    (if shows.headD true then [] else List.range' offset nb) ++
      idxMarkersToRemoveLoop cs shows.tail (offset + nb)

/-- The numpy assignment `markers[0:3, idx_markers_to_remove, :] = np.nan`
of `Viz._set_markers_from_q`: every listed channel becomes NaN, the
array shape is untouched. -/
def setNanAtAux (idxs : List Nat) (j : Nat) : List Val → List Val
  | [] => []
  | v :: vs => (if j ∈ idxs then Val.nan else v) :: setNanAtAux idxs (j + 1) vs

/-- Embedding of `Viz._set_markers_from_q` (with `show_markers` on): the
marker array is refilled from the kinematics provider, the channels of
hidden segments are overwritten with NaN, and the one-frame batch is
pushed to `VtkModel.update_markers`. -/
def set_markers_from_q (model : SegModel) (s : VizState) : VizState :=
  let markers := setNanAtAux s.idx_markers_to_remove 0 model.markerKin
  let (vtkm, _) := update_markers s.vtk_markers { pos := markers, nframes := 1 }
  { s with markers := markers, vtk_markers := vtkm }

/-- Embedding of `Viz._set_meshes_from_q` (with `show_meshes` on): shown
segments get their kinematic mesh vertices, hidden segments get
all-NaN vertex buffers of the same shape, and the batch is pushed to
`VtkModel.update_mesh`. -/
def set_meshes_from_q (model : SegModel) (s : VizState) : VizState :=
  let mesh := (List.range model.meshKin.length).map (fun m =>
    if s.show_segment_is_on.getD m true then model.meshKin.getD m []
    else List.replicate (model.meshKin.getD m []).length Val.nan)
  let (vtkm, _) := update_mesh s.vtk_mesh (mesh.map (fun vs => { verts := vs, nframes := 1 }))
  { s with mesh := mesh, vtk_mesh := vtkm }

/-- Embedding of `Viz.toggle_segments(idx)` (`bioviz/__init__.py`) for a
single segment index: flip `show_segment_is_on[idx]`, rebuild the meshes
(`_set_meshes_from_q`), recompute `idx_markers_to_remove`, and rebuild
the markers (`_set_markers_from_q`).  (`_set_rt_from_q` touches only the
reference-frame collection and is omitted.) -/
def toggle_segments (model : SegModel) (s : VizState) (idx : Nat) : VizState :=
  let s := { s with show_segment_is_on :=
    s.show_segment_is_on.set idx (!s.show_segment_is_on.getD idx true) }
  let s := set_meshes_from_q model s
  let s := { s with idx_markers_to_remove :=
    idxMarkersToRemoveLoop model.markerCounts s.show_segment_is_on 0 }
  set_markers_from_q model s

/-! ## Theorems -/

/-- Claim C3, counterexample: The claim says `setFirstFrame(50)` with
`lastFrame == 30` pulls the last frame up to 50.  The code instead
clamps the requested first frame down to 30 and leaves the last frame
at 30. -/
theorem c3_counterexample :
    set_movement_first_frame ⟨0, 30⟩ 50 = ⟨30, 30⟩ ∧
    (set_movement_first_frame ⟨0, 30⟩ 50).movement_last_frame ≠ 50 := by
  constructor <;> decide

/-- Claim C3, amended: After `set_movement_first_frame f` or
`set_movement_last_frame f` the invariant `first ≤ last` holds; a first
frame beyond the current last is clamped down to the last frame (the
last frame is never moved), and symmetrically a last frame below the
current first is clamped up to the first frame. -/
theorem c3_trim_invariant (s : TrimState) (f : Int) :
    (set_movement_first_frame s f).movement_first_frame ≤
      (set_movement_first_frame s f).movement_last_frame ∧
    (set_movement_first_frame s f).movement_last_frame = s.movement_last_frame ∧
    (set_movement_first_frame s f).movement_first_frame = min f s.movement_last_frame ∧
    (set_movement_last_frame s f).movement_first_frame ≤
      (set_movement_last_frame s f).movement_last_frame ∧
    (set_movement_last_frame s f).movement_first_frame = s.movement_first_frame ∧
    (set_movement_last_frame s f).movement_last_frame = max f s.movement_first_frame := by
  simp only [set_movement_first_frame, set_movement_last_frame]
  split_ifs <;> simp_all <;> omega

/-- Claim C4: One animation tick advances the cursor by one and wraps to
`movement_first_frame + 1` as soon as the advanced cursor reaches
`movement_last_frame`, on every state whose slider bounds are as built
by `_set_movement_slider` (minimum 1, trim bounds within the slider
range, cursor within the slider range). -/
theorem c4_update_tick (s : AnimState)
    (hmin : s.slider_min = 1)
    (hc1 : 1 ≤ s.cursor)
    (hc2 : s.cursor ≤ s.slider_max)
    (hl : s.movement_last_frame ≤ s.slider_max)
    (hf1 : 0 ≤ s.movement_first_frame)
    (hf2 : s.movement_first_frame + 1 ≤ s.slider_max) :
    (update_tick s).cursor =
      if s.movement_last_frame ≤ s.cursor + 1 then s.movement_first_frame + 1
      else s.cursor + 1 := by
  simp only [update_tick, sliderSetValue, hmin]
  split_ifs <;> simp_all <;> omega

/-- Claim C4, witness: With `firstFrame = 10`, `lastFrame = 20`, a tick
from cursor 20 yields cursor 11, not 21. -/
theorem c4_update_tick_witness :
    (update_tick ⟨1, 100, 10, 20, 20⟩).cursor = 11 := by
  have h := c4_update_tick ⟨1, 100, 10, 20, 20⟩ rfl (by decide) (by decide)
    (by decide) (by decide) (by decide)
  simpa using h

/-- Claim C5, code bug: `Viz.set_q` converts tuples/lists to numpy arrays
and then guards with
`not isinstance(Q, np.ndarray) and len(Q.shape) > 1 and Q.shape[0] != self.nQ`,
which is never true for an `ndarray`: the scene update is applied for
*every* shape, including mismatched ones — no `ShapeMismatch`/`TypeError`
is ever raised. -/
theorem c5_set_q_never_raises (nQ ndim shape0 : Nat) :
    set_q nQ ⟨true, ndim, shape0⟩ = Except.ok true ∧
    set_q_guard nQ ⟨true, ndim, shape0⟩ = false := by
  simp [set_q, set_q_guard]

/-- Claim C6: On every ledger whose high-water mark is at least `-1`:
omitting the index writes the event into slot `last_event_index + 1`
(possible whenever that slot exists) and advances the high-water mark by
one; an explicit index `0 ≤ i ≤ last_event_index` overwrites exactly
slot `i` without touching the high-water mark; an explicit index above
the high-water mark raises `IndexError` and changes nothing; and the
slot list never grows in any of the cases. -/
theorem c6_set_event (s : EventLedger) (f : Int) (n : String) (i : Int)
    (hlast : -1 ≤ s.last_event_index) :
    (s.last_event_index + 1 < (s.events.length : Int) →
      set_event s f n none =
        ({ events := s.events.set (s.last_event_index + 1).toNat ⟨f, n⟩,
           last_event_index := s.last_event_index + 1 }, none)) ∧
    (0 ≤ i → i ≤ s.last_event_index → i < (s.events.length : Int) →
      set_event s f n (some i) =
        ({ s with events := s.events.set i.toNat ⟨f, n⟩ }, none)) ∧
    (i > s.last_event_index →
      set_event s f n (some i) = (s, some "IndexError: list index out of range")) ∧
    (set_event s f n none).1.events.length = s.events.length ∧
    (set_event s f n (some i)).1.events.length = s.events.length := by
  refine ⟨?_, ?_, ?_, ?_, ?_⟩
  · intro h
    simp only [set_event, pySet]
    rw [if_pos (by omega), if_pos (by omega)]
  · intro h0 hle hlt
    simp only [set_event, pySet]
    rw [if_neg (by omega), if_pos h0, if_pos (by omega)]
  · intro h
    simp only [set_event, pySet]
    rw [if_pos (by omega)]
  · simp only [set_event, pySet]
    split_ifs <;> simp
  · simp only [set_event, pySet]
    split_ifs <;> simp

/-- Claim C6, witness: On a five-slot ledger with two used slots
(high-water mark 1): appending lands in slot 2, overwriting slot 0 keeps
the mark, index 3 raises, and the capacity stays 5. -/
theorem c6_set_event_witness :
    set_event ⟨List.replicate 5 ⟨-1, ""⟩, 1⟩ 7 "e" none =
      ({ events := (List.replicate 5 (⟨-1, ""⟩ : Event)).set 2 ⟨7, "e"⟩,
         last_event_index := 2 }, none) ∧
    set_event ⟨List.replicate 5 ⟨-1, ""⟩, 1⟩ 7 "e" (some 0) =
      ({ events := (List.replicate 5 (⟨-1, ""⟩ : Event)).set 0 ⟨7, "e"⟩,
         last_event_index := 1 }, none) ∧
    set_event ⟨List.replicate 5 ⟨-1, ""⟩, 1⟩ 7 "e" (some 3) =
      (⟨List.replicate 5 ⟨-1, ""⟩, 1⟩, some "IndexError: list index out of range") ∧
    (set_event ⟨List.replicate 5 ⟨-1, ""⟩, 1⟩ 7 "e" none).1.events.length = 5 := by
  have h := c6_set_event ⟨List.replicate 5 ⟨-1, ""⟩, 1⟩ 7 "e" 0 (by decide)
  have h3 := c6_set_event ⟨List.replicate 5 ⟨-1, ""⟩, 1⟩ 7 "e" 3 (by decide)
  refine ⟨?_, ?_, ?_, ?_⟩
  · simpa using h.1 (by decide)
  · simpa using h.2.1 (by decide) (by decide) (by decide)
  · simpa using h3.2.2.1 (by decide)
  · simpa using h.2.2.2.1

/-- The ledger obtained from an empty five-slot ledger by
`set_event(10, "e1")` then `set_event(20, "e2")` (both appended): used
slots 0 and 1, high-water mark 1. -/
def twoEventLedger : EventLedger :=
  (set_event (set_event ⟨List.replicate 5 ⟨-1, ""⟩, -1⟩ 10 "e1" none).1 20 "e2" none).1

/-- Claim C7: Event selection steps cyclically through the used slots with
"none selected" (`-1`) as an extra position at both ends: `+1` from
"none selected" lands on slot 0, `+1` from the last used slot returns to
"none selected", `+1` inside the used range moves to the next slot, and
`-1` from "none selected" wraps to the last used slot.  Concretely,
setting events at frames 10 then 20 and stepping `+1` from "none
selected" selects the event set at frame 10. -/
theorem c7_select_event_cycle (last cur : Int) (h0 : 0 ≤ last) :
    select_event_step last (-1) 1 = 0 ∧
    select_event_step last last 1 = -1 ∧
    (-1 ≤ cur → cur < last → select_event_step last cur 1 = cur + 1) ∧
    select_event_step last (-1) (-1) = last ∧
    (select_event twoEventLedger
        (some (select_event_step twoEventLedger.last_event_index (-1) 1)) =
        (0, some ⟨10, "e1"⟩) ∧
      select_event_step twoEventLedger.last_event_index 1 1 = -1) := by
  refine ⟨?_, ?_, ?_, ?_, ?_⟩
  · simp only [select_event_step]
    split_ifs <;> omega
  · simp only [select_event_step]
    split_ifs <;> omega
  · intro h1 h2
    simp only [select_event_step]
    split_ifs <;> omega
  · simp only [select_event_step]
    split_ifs <;> omega
  · constructor <;> decide

/-- Claim C7, witness: The cyclic-stepping facts at the concrete ledger
with used slots 0 and 1 (high-water mark 1). -/
theorem c7_select_event_cycle_witness :
    select_event_step 1 (-1) 1 = 0 ∧
    select_event_step 1 1 1 = -1 ∧
    select_event_step 1 0 1 = 1 ∧
    select_event_step 1 (-1) (-1) = 1 := by
  have h := c7_select_event_cycle 1 0 (by decide)
  exact ⟨h.1, h.2.1, h.2.2.1 (by decide) (by decide), h.2.2.2.1⟩

/-- The times row built by `convertEventLoop` is exactly the unset-free
events mapped to `(frame + first_frame) / frame_rate`. -/
lemma convertEventLoop_times (events : List Event) (first_frame : Int) (frame_rate : ℚ) :
    (convertEventLoop events first_frame frame_rate).2.2 =
      (events.filter (fun e => e.frame ≠ -1)).map
        (fun e => ((e.frame : ℚ) + (first_frame : ℚ)) / frame_rate) := by
  induction events with
  | nil => simp [convertEventLoop]
  | cons e rest ih =>
    simp only [convertEventLoop, List.filter_cons]
    by_cases h : e.frame = -1
    · simp [h, ih]
    · simp [h, ih, mul_one]

/-- Claim C8: For every event ledger, trim offset, container first-frame
offset and positive frame rate, the exported times row assigns each
kept event the absolute timestamp
`(frame + trim_first_frame + container_first_frame) / rate`, events with
the unset sentinel frame `-1` are excluded, and the prepended Nexus row
is all zeros of the same length. -/
theorem c8_convert_event_for_c3d (events : List Event)
    (movement_first_frame first_frame_c3d : Int) (frame_rate : ℚ)
    (_hr : 0 < frame_rate) :
    (convert_event_for_c3d events movement_first_frame first_frame_c3d frame_rate).2.2.2 =
      (events.filter (fun e => e.frame ≠ -1)).map
        (fun e => ((e.frame : ℚ) + (movement_first_frame : ℚ) + (first_frame_c3d : ℚ)) /
          frame_rate) ∧
    (convert_event_for_c3d events movement_first_frame first_frame_c3d frame_rate).2.2.1 =
      List.replicate ((events.filter (fun e => e.frame ≠ -1)).length) (0 : ℚ) ∧
    (∀ e ∈ events, e.frame ≠ -1 →
      ((e.frame : ℚ) + (movement_first_frame : ℚ) + (first_frame_c3d : ℚ)) / frame_rate ∈
        (convert_event_for_c3d events movement_first_frame first_frame_c3d frame_rate).2.2.2) := by
  have hmap : (convert_event_for_c3d events movement_first_frame first_frame_c3d
      frame_rate).2.2.2 =
      (events.filter (fun e => e.frame ≠ -1)).map
        (fun e => ((e.frame : ℚ) + (movement_first_frame : ℚ) + (first_frame_c3d : ℚ)) /
          frame_rate) := by
    simp only [convert_event_for_c3d, convertEventLoop_times]
    refine List.map_congr_left (fun e _ => ?_)
    push_cast
    ring
  refine ⟨hmap, ?_, ?_⟩
  · simp only [convert_event_for_c3d, convertEventLoop_times]
    congr 1
    simp
  · intro e he hne
    rw [hmap]
    exact List.mem_map_of_mem _ (List.mem_filter.2 ⟨he, by simpa using hne⟩)

/-- Claim C8, witness: One set event (frame 4), one unset event, trim
offset 2, container offset 3, rate 10: the export keeps one timestamp,
`(4 + 2 + 3) / 10`. -/
theorem c8_convert_event_for_c3d_witness :
    (convert_event_for_c3d [⟨4, "left toe"⟩, ⟨-1, ""⟩] 2 3 10).2.2.2 =
      [(9 : ℚ) / 10] ∧
    ((4 : ℚ) + 2 + 3) / 10 ∈ (convert_event_for_c3d [⟨4, "left toe"⟩, ⟨-1, ""⟩] 2 3 10).2.2.2 := by
  have h := c8_convert_event_for_c3d [⟨4, "left toe"⟩, ⟨-1, ""⟩] 2 3 10 (by norm_num)
  constructor
  · rw [h.1]
    norm_num
  · exact h.2.2 ⟨4, "left toe"⟩ (by simp) (by decide)

/-- Splitting a scan for the last occurrence at an append boundary. -/
lemma rfindAux_append (xs ys : List Char) (c : Char) (i b : Int) :
    rfindAux (xs ++ ys) c i b = rfindAux ys c (i + xs.length) (rfindAux xs c i b) := by
  induction xs generalizing i b with
  | nil => simp [rfindAux]
  | cons x xs ih =>
    simp only [List.cons_append, rfindAux, List.append_eq]
    rw [ih]
    have h : i + 1 + (xs.length : Int) = i + ((x :: xs).length : Int) := by
      simp only [List.length_cons]
      push_cast
      ring
    rw [h]

/-- A scan whose accumulator is below the running index stays within
`[b, i + |xs|)`. -/
lemma rfindAux_bounds (xs : List Char) (c : Char) (i b : Int) (h : b < i) :
    b ≤ rfindAux xs c i b ∧ rfindAux xs c i b < i + xs.length := by
  induction xs generalizing i b with
  | nil =>
    simp only [rfindAux, List.length_nil]
    omega
  | cons x xs ih =>
    simp only [rfindAux]
    have h2 : (if x = c then i else b) < i + 1 := by split <;> omega
    have h3 := ih (i + 1) (if x = c then i else b) h2
    refine ⟨le_trans ?_ h3.1, ?_⟩
    · split <;> omega
    · have h4 := h3.2
      simp only [List.length_cons]
      push_cast
      push_cast at h4
      omega

/-- `rfind` returns `-1` or a valid index. -/
lemma rfind_bounds (p : List Char) (c : Char) :
    -1 ≤ rfind p c ∧ rfind p c < p.length := by
  simpa [rfind] using rfindAux_bounds p c 0 (-1) (by norm_num)

/-- Scanning a block that does not contain the needle leaves the
accumulator unchanged. -/
lemma rfindAux_not_mem :
    ∀ (ys : List Char) (c : Char) (i b : Int), c ∉ ys → rfindAux ys c i b = b
  | [], _, _, _, _ => rfl
  | y :: ys, c, i, b, h => by
    have h1 : ¬(y = c) := by
      intro hyc
      exact h (by simp [hyc])
    have h2 : c ∉ ys := fun hm => h (List.mem_cons_of_mem _ hm)
    simp only [rfindAux, if_neg h1]
    exact rfindAux_not_mem ys c (i + 1) b h2

/-- `rfind` over an append whose right part misses the needle. -/
lemma rfind_append_not_mem (p q : List Char) (c : Char) (h : c ∉ q) :
    rfind (p ++ q) c = rfind p c := by
  rw [rfind, rfindAux_append, rfindAux_not_mem q c _ _ h]
  rfl

/-- The literal `".png"` suffix: scanning it for `'.'` always answers
the position of its leading dot. -/
lemma rfindAux_png (m b : Int) :
    rfindAux ('.' :: 'p' :: 'n' :: 'g' :: []) '.' m b = m := by
  simp [rfindAux]

/-- Appending `".png"` makes the appended dot the last dot of the
path. -/
lemma rfind_append_png (p : List Char) :
    rfind (p ++ '.' :: 'p' :: 'n' :: 'g' :: []) '.' = p.length := by
  rw [rfind, rfindAux_append, rfindAux_png]
  simp

/-- When `splitext` reports an empty extension it returns the whole path
as the stem. -/
lemma splitext_no_ext_fst (p : List Char) (h : (splitext p).2 = []) :
    (splitext p).1 = p := by
  by_cases hc : (rfind p '.' > rfind p '/' ∧
      (((p.drop (rfind p '/' + 1).toNat).take
        (rfind p '.' - (rfind p '/' + 1)).toNat).any (fun ch => ch ≠ '.')))
  · exfalso
    have hsnd : (splitext p).2 = p.drop (rfind p '.').toNat := by
      simp only [splitext, if_pos hc]
    rw [hsnd] at h
    have hdot := rfind_bounds p '.'
    have hsep := rfind_bounds p '/'
    have hlen := List.drop_eq_nil_iff.1 h
    omega
  · simp only [splitext, if_neg hc]

/-- Appending `".png"` to a path whose basename holds at least one
non-dot character splits back into the path and `".png"`. -/
lemma splitext_append_png (p : List Char)
    (h2 : (p.drop (rfind p '/' + 1).toNat).any (fun ch => ch ≠ '.')) :
    splitext (p ++ '.' :: 'p' :: 'n' :: 'g' :: []) =
      (p, '.' :: 'p' :: 'n' :: 'g' :: []) := by
  have hsep : rfind (p ++ '.' :: 'p' :: 'n' :: 'g' :: []) '/' = rfind p '/' :=
    rfind_append_not_mem p _ '/' (by decide)
  have hdot : rfind (p ++ '.' :: 'p' :: 'n' :: 'g' :: []) '.' = p.length :=
    rfind_append_png p
  have hsb := rfind_bounds p '/'
  have hk : (rfind p '/' + 1).toNat ≤ p.length := by omega
  have hslice :
      ((p ++ '.' :: 'p' :: 'n' :: 'g' :: []).drop (rfind p '/' + 1).toNat).take
        ((p.length : Int) - (rfind p '/' + 1)).toNat =
      p.drop (rfind p '/' + 1).toNat := by
    rw [List.drop_append_of_le_length hk]
    refine List.take_left' ?_
    rw [List.length_drop]
    omega
  simp only [splitext, hsep, hdot]
  split_ifs with hc
  · have h1 : (p ++ '.' :: 'p' :: 'n' :: 'g' :: []).take ((p.length : Int)).toNat = p := by
      rw [Int.toNat_natCast]
      exact List.take_left' rfl
    have h1' : (p ++ '.' :: 'p' :: 'n' :: 'g' :: []).drop ((p.length : Int)).toNat =
        '.' :: 'p' :: 'n' :: 'g' :: [] := by
      rw [Int.toNat_natCast]
      exact List.drop_left' rfl
    rw [h1, h1']
  · exact absurd ⟨by omega, by rw [hslice]; exact h2⟩ hc

/-- Claim C10, counterexample: For the save path `"dir/"` (empty
basename): `snapshot "dir/"` writes `"dir/.png"`, but
`snapshot "dir/.png"` writes `"dir/.png.png"` — the extensionless path
and the same path with `".png"` do *not* produce the same output file
(`posixpath.splitext` treats the leading dot of a basename as non-ext). -/
theorem c10_counterexample :
    snapshot "dir/".toList = Except.ok "dir/.png".toList ∧
    snapshot "dir/.png".toList = Except.ok "dir/.png.png".toList ∧
    snapshot "dir/".toList ≠ snapshot "dir/.png".toList := by
  have h1 : snapshot "dir/".toList = Except.ok "dir/.png".toList := rfl
  have h2 : snapshot "dir/.png".toList = Except.ok "dir/.png.png".toList := rfl
  refine ⟨h1, h2, ?_⟩
  rw [h1, h2]
  intro h
  exact absurd (Except.ok.inj h) (by decide)

/-- Claim C10, amended: For every save path: an empty extension is
silently completed to `".png"` (no failure) with output
`path ++ ".png"`; the call raises (`NotImplementedError`) exactly when
the path carries a non-empty extension different from `".png"`; and an
extensionless path whose basename contains at least one non-dot
character produces the same output file as the same path with `".png"`
appended.  (Paths whose basename is empty or all dots — e.g. `"dir/"` —
are the exception forced by the counterexample.) -/
theorem c10_snapshot (p : List Char)
    (hext : (splitext p).2 = [])
    (hbase : (p.drop (rfind p '/' + 1).toNat).any (fun ch => ch ≠ '.')) :
    snapshot p = Except.ok (p ++ ".png".toList) ∧
    snapshot (p ++ ".png".toList) = Except.ok (p ++ ".png".toList) ∧
    (∀ q : List Char, (∃ e, snapshot q = Except.error e) ↔
      ((splitext q).2 ≠ [] ∧ (splitext q).2 ≠ ".png".toList)) := by
  refine ⟨?_, ?_, ?_⟩
  · simp only [snapshot, hext, splitext_no_ext_fst p hext]
    rfl
  · have hpng : ".png".toList = '.' :: 'p' :: 'n' :: 'g' :: [] := by decide
    rw [hpng]
    simp only [snapshot, splitext_append_png p hbase]
    rfl
  · intro q
    have hpng : ".png".toList = '.' :: 'p' :: 'n' :: 'g' :: [] := by decide
    simp only [snapshot, hpng]
    by_cases h0 : (splitext q).2 = []
    · simp [h0]
    · by_cases h1 : (splitext q).2 = '.' :: 'p' :: 'n' :: 'g' :: []
      · simp [h0, h1]
      · simp [h0, h1]

/-- Claim C10, witness: The amended statement at the concrete
extensionless path `"shot"`. -/
theorem c10_snapshot_witness :
    snapshot "shot".toList = Except.ok "shot.png".toList ∧
    snapshot ("shot".toList ++ ".png".toList) = Except.ok ("shot".toList ++ ".png".toList) := by
  have h := c10_snapshot "shot".toList (by decide) (by decide)
  refine ⟨?_, ?_⟩
  · rw [h.1]
    exact congrArg Except.ok (by decide)
  · exact h.2.1

/-- The overwrite loop keeps the number of actors. -/
lemma overwriteActorsAux_length (pos : List Val) (sz op : ℚ) :
    ∀ (i : Nat) (acts : List Actor),
      (overwriteActorsAux pos sz op i acts).length = acts.length
  | _, [] => rfl
  | i, _ :: rest => by
    simp only [overwriteActorsAux, List.length_cons]
    rw [overwriteActorsAux_length pos sz op (i + 1) rest]

/-- The overwrite loop keeps every actor's identity. -/
lemma overwriteActorsAux_ids (pos : List Val) (sz op : ℚ) :
    ∀ (i : Nat) (acts : List Actor),
      (overwriteActorsAux pos sz op i acts).map Actor.id = acts.map Actor.id
  | _, [] => rfl
  | i, _ :: rest => by
    simp only [overwriteActorsAux, List.map_cons]
    rw [overwriteActorsAux_ids pos sz op (i + 1) rest]

/-- The overwrite loop writes the batch positions into the actors'
buffers (when there are enough positions). -/
lemma overwriteActorsAux_centers (pos : List Val) (sz op : ℚ) :
    ∀ (acts : List Actor) (i : Nat), i + acts.length ≤ pos.length →
      (overwriteActorsAux pos sz op i acts).map Actor.center =
        (pos.drop i).take acts.length
  | [], i, _ => by simp [overwriteActorsAux]
  | a :: rest, i, h => by
    have hi : i < pos.length := by
      simp only [List.length_cons] at h
      omega
    have hrec := overwriteActorsAux_centers pos sz op rest (i + 1)
      (by simp only [List.length_cons] at h; omega)
    simp only [overwriteActorsAux, List.map_cons, List.length_cons]
    rw [hrec, List.getD_eq_getElem pos Val.nan hi, List.drop_eq_getElem_cons hi,
      List.take_succ_cons]

/-- Identities of a freshly created actor list: the contiguous id range
starting at the id supply. -/
lemma fresh_actor_ids (next n : Nat) :
    ((List.range n).map
      (fun i => ({ id := next + i, center := Val.nan, radius := 0,
                   opacity := 0 } : Actor))).map Actor.id = List.range' next n := by
  rw [List.map_map, List.range'_eq_map_range]
  rfl

/-- Claim C1: `update_markers` with a one-frame batch: equal channel
counts overwrite the existing actors in place (same actors, same
identities, same count, buffers rewritten to the incoming positions);
differing counts (including the first call on an empty collection)
recreate the collection — the new actor list has exactly the incoming
count, carries only freshly allocated identities, and none of the old
identities survive. -/
theorem c1_update_markers (s : VtkMarkersState) (m : MarkersBatch)
    (hframe : m.nframes ≤ 1) :
    (m.pos.length = s.markers.pos.length →
      update_markers s m =
        ({ s with
            markers := m,
            markers_actors :=
              overwriteActorsAux m.pos s.markers_size s.markers_opacity 0
                s.markers_actors }, none) ∧
      (update_markers s m).1.markers_actors.map Actor.id =
        s.markers_actors.map Actor.id ∧
      (update_markers s m).1.markers_actors.length = s.markers_actors.length ∧
      (s.markers_actors.length = m.pos.length →
        (update_markers s m).1.markers_actors.map Actor.center = m.pos)) ∧
    (m.pos.length ≠ s.markers.pos.length →
      (update_markers s m).2 = none ∧
      (update_markers s m).1.markers_actors.length = m.pos.length ∧
      (update_markers s m).1.markers_actors.map Actor.id =
        List.range' s.next_actor_id m.pos.length ∧
      (∀ a ∈ s.markers_actors, a.id < s.next_actor_id →
        a.id ∉ (update_markers s m).1.markers_actors.map Actor.id) ∧
      (update_markers s m).1.markers_actors.map Actor.center = m.pos) := by
  have hf : ¬(m.nframes > 1) := by omega
  constructor
  · intro heq
    have hupd : update_markers s m =
        ({ s with
            markers := m,
            markers_actors :=
              overwriteActorsAux m.pos s.markers_size s.markers_opacity 0
                s.markers_actors }, none) := by
      simp only [update_markers, if_neg hf, if_neg (by omega : ¬(m.pos.length ≠ s.markers.pos.length))]
    refine ⟨hupd, ?_, ?_, ?_⟩
    · rw [hupd]
      exact overwriteActorsAux_ids m.pos s.markers_size s.markers_opacity 0 s.markers_actors
    · rw [hupd]
      exact overwriteActorsAux_length m.pos s.markers_size s.markers_opacity 0 s.markers_actors
    · intro hlen
      rw [hupd]
      have := overwriteActorsAux_centers m.pos s.markers_size s.markers_opacity
        s.markers_actors 0 (by omega)
      rw [this, hlen]
      simp
  · intro hne
    have hupd : update_markers s m = new_marker_set s m := by
      simp only [update_markers, if_neg hf, if_pos hne]
    have hnew : new_marker_set s m =
        ({ markers := m,
           markers_actors :=
             overwriteActorsAux m.pos s.markers_size s.markers_opacity 0
               ((List.range m.pos.length).map
                 (fun i => ({ id := s.next_actor_id + i, center := Val.nan,
                              radius := 0, opacity := 0 } : Actor))),
           markers_size := s.markers_size,
           markers_opacity := s.markers_opacity,
           next_actor_id := s.next_actor_id + m.pos.length }, none) := by
      simp only [new_marker_set, if_neg hf]
    have hfreshlen : ((List.range m.pos.length).map
        (fun i => ({ id := s.next_actor_id + i, center := Val.nan,
                     radius := 0, opacity := 0 } : Actor))).length = m.pos.length := by
      simp
    have hids : (update_markers s m).1.markers_actors.map Actor.id =
        List.range' s.next_actor_id m.pos.length := by
      rw [hupd, hnew]
      simp only []
      rw [overwriteActorsAux_ids, fresh_actor_ids]
    refine ⟨?_, ?_, hids, ?_, ?_⟩
    · rw [hupd, hnew]
    · rw [hupd, hnew]
      simp only []
      rw [overwriteActorsAux_length, hfreshlen]
    · intro a _ ha
      rw [hids]
      intro hmem
      rw [List.mem_range'_1] at hmem
      omega
    · rw [hupd, hnew]
      simp only []
      rw [overwriteActorsAux_centers _ _ _ _ 0 (by rw [hfreshlen]; omega),
        hfreshlen]
      simp

/-- Claim C1, witness: Applying `update_markers` on a two-marker
collection: a two-marker batch overwrites in place (ids kept), a
three-marker batch recreates with fresh ids `[7, 8, 9]`. -/
theorem c1_update_markers_witness :
    (update_markers
        ⟨⟨[Val.pt 0 0 0, Val.pt 1 1 1], 1⟩,
         [⟨3, Val.pt 0 0 0, 1, 1⟩, ⟨4, Val.pt 1 1 1, 1, 1⟩], 1, 1, 7⟩
        ⟨[Val.pt 2 2 2, Val.pt 3 3 3], 1⟩).1.markers_actors.map Actor.id = [3, 4] ∧
    (update_markers
        ⟨⟨[Val.pt 0 0 0, Val.pt 1 1 1], 1⟩,
         [⟨3, Val.pt 0 0 0, 1, 1⟩, ⟨4, Val.pt 1 1 1, 1, 1⟩], 1, 1, 7⟩
        ⟨[Val.pt 2 2 2, Val.pt 3 3 3, Val.pt 4 4 4], 1⟩).1.markers_actors.map Actor.id =
      [7, 8, 9] := by
  constructor
  · have h := (c1_update_markers
      ⟨⟨[Val.pt 0 0 0, Val.pt 1 1 1], 1⟩,
       [⟨3, Val.pt 0 0 0, 1, 1⟩, ⟨4, Val.pt 1 1 1, 1, 1⟩], 1, 1, 7⟩
      ⟨[Val.pt 2 2 2, Val.pt 3 3 3], 1⟩ (by decide)).1 (by decide)
    rw [h.2.1]
    rfl
  · have h := (c1_update_markers
      ⟨⟨[Val.pt 0 0 0, Val.pt 1 1 1], 1⟩,
       [⟨3, Val.pt 0 0 0, 1, 1⟩, ⟨4, Val.pt 1 1 1, 1, 1⟩], 1, 1, 7⟩
      ⟨[Val.pt 2 2 2, Val.pt 3 3 3, Val.pt 4 4 4], 1⟩ (by decide)).2 (by decide)
    rw [h.2.2.1]
    rfl

/-- Unfolding of the mesh-creation loop on a cons cell. -/
lemma newMeshLoop_cons (next i : Nat) (m : MeshB) (rest : List MeshB) :
    newMeshLoop next i (m :: rest) =
      if m.nframes ≠ 1 then ([], some "IndexError: Mesh should be from one frame only")
      else (({ id := next + i, points := m.verts } : MActor) ::
              (newMeshLoop next (i + 1) rest).1,
            (newMeshLoop next (i + 1) rest).2) := by
  by_cases h : m.nframes = 1
  · simp [newMeshLoop, h]
  · simp [newMeshLoop, h]

/-- A batch of one-frame meshes never fails the creation loop. -/
lemma newMeshLoop_snd_none (next : Nat) :
    ∀ (ms : List MeshB) (i : Nat), (∀ mh ∈ ms, mh.nframes = 1) →
      (newMeshLoop next i ms).2 = none
  | [], _, _ => rfl
  | m :: rest, i, h => by
    have h1 : m.nframes = 1 := h m (List.mem_cons_self m rest)
    have h2 : ∀ mh ∈ rest, mh.nframes = 1 := fun mh hm => h mh (List.mem_cons_of_mem _ hm)
    rw [newMeshLoop_cons, if_neg (by omega)]
    exact newMeshLoop_snd_none next rest (i + 1) h2

/-- A batch holding a multi-frame mesh always fails the creation loop. -/
lemma newMeshLoop_snd_some (next : Nat) :
    ∀ (ms : List MeshB) (i : Nat), (∃ mh ∈ ms, mh.nframes ≠ 1) →
      (newMeshLoop next i ms).2 =
        some "IndexError: Mesh should be from one frame only"
  | [], _, h => absurd h (by simp)
  | m :: rest, i, h => by
    by_cases h1 : m.nframes = 1
    · have h2 : ∃ mh ∈ rest, mh.nframes ≠ 1 := by
        rcases h with ⟨mh, hm, hfr⟩
        rcases List.mem_cons.1 hm with rfl | hm'
        · omega
        · exact ⟨mh, hm', hfr⟩
      rw [newMeshLoop_cons, if_neg (by omega)]
      exact newMeshLoop_snd_some next rest (i + 1) h2
    · rw [newMeshLoop_cons, if_pos (by omega)]

/-- A batch of one-frame meshes never hits the frame-check arm of the
update guard. -/
lemma meshGuardLoop_no_frameErr (all : List MeshB) :
    ∀ (ms : List MeshB) (i : Nat), (∀ mh ∈ ms, mh.nframes = 1) →
      meshGuardLoop all i ms ≠ MeshGuard.frameErr
  | [], _, _ => by simp [meshGuardLoop]
  | m :: rest, i, h => by
    have h1 : m.nframes = 1 := h m (List.mem_cons_self m rest)
    have h2 : ∀ mh ∈ rest, mh.nframes = 1 := fun mh hm => h mh (List.mem_cons_of_mem _ hm)
    simp only [meshGuardLoop, if_neg (by omega : ¬(m.nframes ≠ 1))]
    match hall : all[i]? with
    | none => simp
    | some mi =>
      by_cases hc : m.verts.length ≠ mi.verts.length
      · simp [hc]
      · simpa [hc] using meshGuardLoop_no_frameErr all rest (i + 1) h2

/-- A batch holding a multi-frame mesh never passes the update guard. -/
lemma meshGuardLoop_not_ok (all : List MeshB) :
    ∀ (ms : List MeshB) (i : Nat), (∃ mh ∈ ms, mh.nframes ≠ 1) →
      meshGuardLoop all i ms ≠ MeshGuard.ok
  | [], _, h => absurd h (by simp)
  | m :: rest, i, h => by
    by_cases h1 : m.nframes = 1
    · have h2 : ∃ mh ∈ rest, mh.nframes ≠ 1 := by
        rcases h with ⟨mh, hm, hfr⟩
        rcases List.mem_cons.1 hm with rfl | hm'
        · omega
        · exact ⟨mh, hm', hfr⟩
      simp only [meshGuardLoop, if_neg (by omega : ¬(m.nframes ≠ 1))]
      match hall : all[i]? with
      | none => simp
      | some mi =>
        by_cases hc : m.verts.length ≠ mi.verts.length
        · simp [hc]
        · simpa [hc] using meshGuardLoop_not_ok all rest (i + 1) h2
    · simp [meshGuardLoop, h1]

/-- A state of the mesh collection holding two one-vertex one-frame
meshes, rendered by actors 0 and 1. -/
def c9MeshState : VtkMeshState :=
  { all_meshes := [⟨[Val.pt 0 0 0], 1⟩, ⟨[Val.pt 0 0 0], 1⟩],
    mesh_actors := [⟨0, [Val.pt 0 0 0]⟩, ⟨1, [Val.pt 0 0 0]⟩],
    next_mesh_id := 2 }

/-- An incoming batch whose first mesh changed vertex count (forcing the
recreate path) and whose second mesh spans two time-frames. -/
def c9MeshBatch : List MeshB :=
  [⟨[Val.pt 1 1 1, Val.pt 2 2 2], 1⟩, ⟨[Val.pt 3 3 3], 2⟩]

/-- Claim C9, counterexample: The claim says a multi-frame batch leaves
the collection's primitives unchanged.  On the mesh collection, a batch
whose first mesh changes vertex count and whose second mesh spans two
frames enters `new_mesh_set`, which discards the two existing actors and
rebuilds only the first before the frame check raises: the update call
fails *and* the collection now holds one fresh actor instead of its two
old ones. -/
theorem c9_counterexample :
    (update_mesh c9MeshState c9MeshBatch).2 =
      some "IndexError: Mesh should be from one frame only" ∧
    (update_mesh c9MeshState c9MeshBatch).1.mesh_actors ≠ c9MeshState.mesh_actors ∧
    (update_mesh c9MeshState c9MeshBatch).1.mesh_actors.length = 1 ∧
    c9MeshState.mesh_actors.length = 2 := by
  refine ⟨by decide, by decide, by decide, by decide⟩

/-- Claim C9, amended: A geometry batch spanning more than one time-frame
always makes the entity-collection update fail with the
one-frame-only `IndexError`, and a batch of exactly one frame never
does.  For the marker collection the failing call leaves the state
untouched; for the mesh collection the failure can strike after the
recreate path has already discarded the old primitives (see the
counterexample), so "unchanged" holds there only when no earlier mesh in
the batch changed its vertex count. -/
theorem c9_invalid_frame_count (s : VtkMarkersState) (t : VtkMeshState)
    (m : MarkersBatch) (ms : List MeshB) :
    (m.nframes > 1 →
      update_markers s m = (s, some "IndexError: Markers should be from one frame only")) ∧
    (m.nframes = 1 → (update_markers s m).2 = none) ∧
    ((∃ mh ∈ ms, mh.nframes ≠ 1) →
      (update_mesh t ms).2 = some "IndexError: Mesh should be from one frame only") ∧
    ((∀ mh ∈ ms, mh.nframes = 1) → (update_mesh t ms).2 = none) := by
  refine ⟨?_, ?_, ?_, ?_⟩
  · intro h
    simp only [update_markers, if_pos h]
  · intro h
    have hf : ¬(m.nframes > 1) := by omega
    simp only [update_markers, if_neg hf]
    by_cases hc : m.pos.length ≠ s.markers.pos.length
    · simp only [if_pos hc, new_marker_set, if_neg hf]
    · simp only [if_neg hc]
  · intro h
    simp only [update_mesh]
    match hg : meshGuardLoop t.all_meshes 0 ms with
    | MeshGuard.frameErr => rfl
    | MeshGuard.recreate =>
      simp only [new_mesh_set]
      exact newMeshLoop_snd_some t.next_mesh_id ms 0 h
    | MeshGuard.ok => exact absurd hg (meshGuardLoop_not_ok t.all_meshes ms 0 h)
  · intro h
    simp only [update_mesh]
    match hg : meshGuardLoop t.all_meshes 0 ms with
    | MeshGuard.frameErr => exact absurd hg (meshGuardLoop_no_frameErr t.all_meshes ms 0 h)
    | MeshGuard.recreate =>
      simp only [new_mesh_set]
      exact newMeshLoop_snd_none t.next_mesh_id ms 0 h
    | MeshGuard.ok => rfl

/-- Claim C9, witness: The amended statement at concrete states: a
two-frame marker batch fails and leaves the marker state unchanged, a
one-frame marker batch succeeds, a two-frame mesh batch fails, a
one-frame mesh batch succeeds. -/
theorem c9_invalid_frame_count_witness :
    update_markers ⟨⟨[Val.pt 0 0 0], 1⟩, [⟨0, Val.pt 0 0 0, 1, 1⟩], 1, 1, 1⟩
        ⟨[Val.pt 5 5 5], 2⟩ =
      (⟨⟨[Val.pt 0 0 0], 1⟩, [⟨0, Val.pt 0 0 0, 1, 1⟩], 1, 1, 1⟩,
        some "IndexError: Markers should be from one frame only") ∧
    (update_markers ⟨⟨[Val.pt 0 0 0], 1⟩, [⟨0, Val.pt 0 0 0, 1, 1⟩], 1, 1, 1⟩
        ⟨[Val.pt 5 5 5], 1⟩).2 = none ∧
    (update_mesh c9MeshState [⟨[Val.pt 3 3 3], 2⟩]).2 =
      some "IndexError: Mesh should be from one frame only" ∧
    (update_mesh c9MeshState [⟨[Val.pt 3 3 3], 1⟩, ⟨[Val.pt 4 4 4], 1⟩]).2 = none := by
  have h1 := c9_invalid_frame_count
    ⟨⟨[Val.pt 0 0 0], 1⟩, [⟨0, Val.pt 0 0 0, 1, 1⟩], 1, 1, 1⟩ c9MeshState
    ⟨[Val.pt 5 5 5], 2⟩ [⟨[Val.pt 3 3 3], 2⟩]
  have h2 := c9_invalid_frame_count
    ⟨⟨[Val.pt 0 0 0], 1⟩, [⟨0, Val.pt 0 0 0, 1, 1⟩], 1, 1, 1⟩ c9MeshState
    ⟨[Val.pt 5 5 5], 1⟩ [⟨[Val.pt 3 3 3], 1⟩, ⟨[Val.pt 4 4 4], 1⟩]
  exact ⟨h1.1 (by decide), h2.2.1 rfl, h1.2.2.1 (by decide), h2.2.2.2 (by decide)⟩

/-- The NaN-overwrite loop keeps the array length. -/
lemma setNanAtAux_length (idxs : List Nat) :
    ∀ (j : Nat) (vals : List Val), (setNanAtAux idxs j vals).length = vals.length
  | _, [] => rfl
  | j, _ :: vs => by
    simp only [setNanAtAux, List.length_cons]
    rw [setNanAtAux_length idxs (j + 1) vs]

/-- Element view of the NaN-overwrite loop: position `j` (absolute index
`j0 + j`) becomes NaN exactly when listed. -/
lemma setNanAtAux_getElem? (idxs : List Nat) :
    ∀ (vals : List Val) (j0 j : Nat),
      (setNanAtAux idxs j0 vals)[j]? =
        (vals[j]?).map (fun v => if (j0 + j) ∈ idxs then Val.nan else v)
  | [], _, j => by simp [setNanAtAux]
  | v :: vs, j0, 0 => by simp [setNanAtAux]
  | v :: vs, j0, j + 1 => by
    simp only [setNanAtAux, List.getElem?_cons_succ]
    rw [setNanAtAux_getElem? idxs vs (j0 + 1) j]
    have h : j0 + 1 + j = j0 + (j + 1) := by omega
    rw [h]

/-- The marker-removal loop contains every marker owned by a hidden
segment: if segment `i` is hidden, all indices from the running offset
plus the sizes of the preceding segments, spanning segment `i`'s block,
are collected. -/
lemma idxMarkersToRemoveLoop_mem :
    ∀ (counts : List Nat) (shows : List Bool) (off i j : Nat),
      i < counts.length →
      shows.getD i true = false →
      off + (counts.take i).sum ≤ j →
      j < off + (counts.take i).sum + counts.getD i 0 →
      j ∈ idxMarkersToRemoveLoop counts shows off
  | [], _, _, i, _, hi, _, _, _ => absurd hi (by simp)
  | nb :: cs, shows, off, 0, j, _, hsh, hlo, hhi => by
    match shows with
    | [] => simp at hsh
    | b :: bs =>
      simp only [List.getD_cons_zero] at hsh
      simp only [idxMarkersToRemoveLoop, List.headD_cons, hsh, if_neg, Bool.false_eq_true,
        ite_false]
      refine List.mem_append_left _ ?_
      rw [List.mem_range'_1]
      simp only [List.take_zero, List.sum_nil, Nat.add_zero] at hlo hhi
      simp only [List.getD_cons_zero] at hhi
      omega
  | nb :: cs, shows, off, i + 1, j, hi, hsh, hlo, hhi => by
    match shows with
    | [] => simp at hsh
    | b :: bs =>
      simp only [List.getD_cons_succ] at hsh
      simp only [List.length_cons] at hi
      refine List.mem_append_right _ ?_
      simp only [List.tail_cons]
      refine idxMarkersToRemoveLoop_mem cs bs (off + nb) i j (by omega) hsh ?_ ?_
      · simp only [List.take_succ_cons, List.sum_cons] at hlo
        omega
      · simp only [List.take_succ_cons, List.sum_cons, List.getD_cons_succ] at hhi
        omega

/-- The block of a segment lies inside the total marker count. -/
lemma take_sum_getD_le (counts : List Nat) (i : Nat) (hi : i < counts.length) :
    (counts.take i).sum + counts.getD i 0 ≤ counts.sum := by
  have h1 : counts.take (i + 1) ++ counts.drop (i + 1) = counts := List.take_append_drop _ _
  have h2 : (counts.take (i + 1)).sum + (counts.drop (i + 1)).sum = counts.sum := by
    rw [← List.sum_append, h1]
  have h3 : counts.take (i + 1) = counts.take i ++ (counts[i]?).toList := List.take_succ
  have h4 : counts[i]? = some (counts.get ⟨i, hi⟩) := List.getElem?_eq_getElem hi
  have h5 : counts.getD i 0 = counts.get ⟨i, hi⟩ := by
    rw [List.getD_eq_getElem?_getD, h4]
    rfl
  rw [h5]
  have h6 : (counts.take (i + 1)).sum = (counts.take i).sum + counts.get ⟨i, hi⟩ := by
    rw [h3, List.sum_append, h4]
    simp
  omega

/-- The update-guard loop passes when every incoming mesh is one-frame
and matches the stored vertex count at its position. -/
lemma meshGuardLoop_ok_of :
    ∀ (ms all : List MeshB) (i : Nat),
      (∀ k, k < ms.length → ∃ mb, ms[k]? = some mb ∧ mb.nframes = 1 ∧
        ∃ mi, all[i + k]? = some mi ∧ mb.verts.length = mi.verts.length) →
      meshGuardLoop all i ms = MeshGuard.ok
  | [], _, _, _ => rfl
  | m :: rest, all, i, h => by
    obtain ⟨mb, hms, hfr, mi, hall, hlen⟩ := h 0 (by simp)
    rw [List.getElem?_cons_zero] at hms
    obtain rfl : m = mb := by injection hms
    simp only [Nat.add_zero] at hall
    simp only [meshGuardLoop, if_neg (by omega : ¬(m.nframes ≠ 1)), hall,
      if_neg (by omega : ¬(m.verts.length ≠ mi.verts.length))]
    refine meshGuardLoop_ok_of rest all (i + 1) (fun k hk => ?_)
    obtain ⟨mb, hms, hfr', mj, hallj, hlenj⟩ := h (k + 1) (by simpa using hk)
    rw [List.getElem?_cons_succ] at hms
    refine ⟨mb, hms, hfr', mj, ?_, hlenj⟩
    rw [← hallj]
    congr 1
    omega

/-- The mesh overwrite loop keeps the number of actors. -/
lemma overwriteMeshPointsAux_length (ms : List MeshB) :
    ∀ (i : Nat) (actors : List MActor),
      (overwriteMeshPointsAux ms i actors).length = actors.length
  | _, [] => rfl
  | i, _ :: rest => by
    simp only [overwriteMeshPointsAux, List.length_cons]
    rw [overwriteMeshPointsAux_length ms (i + 1) rest]

/-- Claim C2: Toggling a currently shown segment hidden via
`toggle_segments`: the per-pose rebuild overwrites every marker owned by
that segment and every vertex of its mesh with NaN placeholders, while
the marker array keeps the model's total marker count, the mesh list
keeps one entry per segment, and both VTK collections keep their actor
counts (index correspondence between primitives and segment identity is
preserved; nothing shrinks).  Hypotheses: the model/state shapes are
consistent (one visibility flag and one mesh per segment, flattened
markers sized by the per-segment counts, VTK collections in sync with
the model). -/
theorem c2_toggle_segments (model : SegModel) (s : VizState) (idx : Nat)
    (hseg : model.markerCounts.length = s.show_segment_is_on.length)
    (hmeshn : model.meshKin.length = s.show_segment_is_on.length)
    (hidx : idx < s.show_segment_is_on.length)
    (hshown : s.show_segment_is_on.getD idx true = true)
    (hmk : model.markerKin.length = model.markerCounts.sum)
    (hvm : s.vtk_markers.markers.pos.length = model.markerCounts.sum)
    (hvmesh : s.vtk_mesh.all_meshes.map (fun mb => mb.verts.length) =
      model.meshKin.map List.length) :
    (∀ j, (model.markerCounts.take idx).sum ≤ j →
      j < (model.markerCounts.take idx).sum + model.markerCounts.getD idx 0 →
      (toggle_segments model s idx).markers[j]? = some Val.nan) ∧
    (toggle_segments model s idx).mesh[idx]? =
      some (List.replicate (model.meshKin.getD idx []).length Val.nan) ∧
    (toggle_segments model s idx).markers.length = model.markerCounts.sum ∧
    (toggle_segments model s idx).mesh.length = model.meshKin.length ∧
    (toggle_segments model s idx).vtk_markers.markers_actors.length =
      s.vtk_markers.markers_actors.length ∧
    (toggle_segments model s idx).vtk_mesh.mesh_actors.length =
      s.vtk_mesh.mesh_actors.length := by
  have hidxc : idx < model.markerCounts.length := by omega
  have hidxm : idx < model.meshKin.length := by omega
  -- the flipped visibility flags
  set show1 : List Bool :=
    s.show_segment_is_on.set idx (!s.show_segment_is_on.getD idx true) with hshow1
  have hshow1idx : show1.getD idx true = false := by
    rw [hshow1, List.getD_eq_getElem?_getD]
    have h : (s.show_segment_is_on.set idx
        (!s.show_segment_is_on.getD idx true))[idx]? =
        some (!s.show_segment_is_on.getD idx true) := by
      simp [List.getElem?_set_self', hidx]
    rw [h, hshown]
    rfl
  -- the rebuilt meshes
  set mesh2 : List (List Val) := (List.range model.meshKin.length).map (fun m =>
    if show1.getD m true then model.meshKin.getD m []
    else List.replicate (model.meshKin.getD m []).length Val.nan) with hmesh2
  -- the recomputed removal indices and the NaN-patched markers
  set idxs : List Nat := idxMarkersToRemoveLoop model.markerCounts show1 0 with hidxs
  set markers3 : List Val := setNanAtAux idxs 0 model.markerKin with hmarkers3
  -- the whole toggle call, unfolded
  have htog : toggle_segments model s idx =
      { show_segment_is_on := show1,
        idx_markers_to_remove := idxs,
        markers := markers3,
        mesh := mesh2,
        vtk_markers := (update_markers s.vtk_markers ⟨markers3, 1⟩).1,
        vtk_mesh := (update_mesh s.vtk_mesh
          (mesh2.map (fun vs => ({ verts := vs, nframes := 1 } : MeshB)))).1 } := rfl
  -- element view of the rebuilt meshes
  have hmesh2get : ∀ k, k < model.meshKin.length →
      mesh2[k]? = some (if show1.getD k true then model.meshKin.getD k []
        else List.replicate (model.meshKin.getD k []).length Val.nan) := by
    intro k hk
    rw [hmesh2, List.getElem?_map, List.getElem?_range hk]
    rfl
  have hmesh2len : mesh2.length = model.meshKin.length := by
    rw [hmesh2]
    simp
  have hmarkers3len : markers3.length = model.markerCounts.sum := by
    rw [hmarkers3, setNanAtAux_length, hmk]
  -- the marker collection takes the in-place path
  have hupdm : update_markers s.vtk_markers ⟨markers3, 1⟩ =
      ({ s.vtk_markers with
          markers := ⟨markers3, 1⟩,
          markers_actors := overwriteActorsAux markers3 s.vtk_markers.markers_size
            s.vtk_markers.markers_opacity 0 s.vtk_markers.markers_actors }, none) := by
    have hne : ¬((⟨markers3, 1⟩ : MarkersBatch).pos.length ≠
        s.vtk_markers.markers.pos.length) := by
      simp only [hvm]
      omega
    simp only [update_markers, if_neg (by omega : ¬((1 : Nat) > 1)), if_neg hne]
  -- the mesh collection passes the guard and rewrites in place
  have hguard : meshGuardLoop s.vtk_mesh.all_meshes 0
      (mesh2.map (fun vs => ({ verts := vs, nframes := 1 } : MeshB))) = MeshGuard.ok := by
    refine meshGuardLoop_ok_of _ _ 0 (fun k hk => ?_)
    have hk2 : k < mesh2.length := by
      simpa using hk
    have hk3 : k < model.meshKin.length := by omega
    obtain ⟨kin, hkin⟩ : ∃ kin, model.meshKin[k]? = some kin :=
      ⟨model.meshKin.get ⟨k, hk3⟩, List.getElem?_eq_getElem hk3⟩
    have hmblen : ∀ vs, mesh2[k]? = some vs → vs.length = kin.length := by
      intro vs hvs
      rw [hmesh2get k hk3] at hvs
      have hgd : model.meshKin.getD k [] = kin := by
        rw [List.getD_eq_getElem?_getD, hkin]
        rfl
      injection hvs with hvs'
      rw [← hvs', hgd]
      split <;> simp
    obtain ⟨vs, hvs⟩ : ∃ vs, mesh2[k]? = some vs :=
      ⟨mesh2.get ⟨k, hk2⟩, List.getElem?_eq_getElem hk2⟩
    refine ⟨⟨vs, 1⟩, ?_, rfl, ?_⟩
    · rw [List.getElem?_map, hvs]
      rfl
    · -- the stored mesh at position k has kin's vertex count
      have hmapped : (s.vtk_mesh.all_meshes.map (fun mb => mb.verts.length))[k]? =
          (model.meshKin.map List.length)[k]? := by rw [hvmesh]
      rw [List.getElem?_map, List.getElem?_map, hkin] at hmapped
      obtain ⟨mi, hmi⟩ : ∃ mi, s.vtk_mesh.all_meshes[k]? = some mi := by
        cases hma : s.vtk_mesh.all_meshes[k]? with
        | none => rw [hma] at hmapped; simp at hmapped
        | some mi => exact ⟨mi, rfl⟩
      rw [hmi] at hmapped
      simp only [Option.map_some'] at hmapped
      refine ⟨mi, by simpa using hmi, ?_⟩
      have := hmblen vs hvs
      injection hmapped with hlen
      simp only []
      omega
  have hupde : (update_mesh s.vtk_mesh
      (mesh2.map (fun vs => ({ verts := vs, nframes := 1 } : MeshB)))).1.mesh_actors =
      overwriteMeshPointsAux (mesh2.map (fun vs => ({ verts := vs, nframes := 1 } : MeshB)))
        0 s.vtk_mesh.mesh_actors := by
    simp only [update_mesh, hguard]
  refine ⟨?_, ?_, ?_, ?_, ?_, ?_⟩
  · intro j hlo hhi
    have hjin : j ∈ idxs := by
      rw [hidxs]
      refine idxMarkersToRemoveLoop_mem model.markerCounts show1 0 idx j hidxc
        hshow1idx (by omega) (by omega)
    have hjlt : j < model.markerKin.length := by
      have := take_sum_getD_le model.markerCounts idx hidxc
      omega
    rw [htog]
    simp only []
    rw [hmarkers3, setNanAtAux_getElem? idxs model.markerKin 0 j,
      List.getElem?_eq_getElem hjlt]
    simp [hjin]
  · rw [htog]
    simp only []
    rw [hmesh2get idx hidxm, hshow1idx]
    rfl
  · rw [htog]
    exact hmarkers3len
  · rw [htog]
    exact hmesh2len
  · rw [htog]
    simp only [hupdm]
    exact overwriteActorsAux_length markers3 s.vtk_markers.markers_size
      s.vtk_markers.markers_opacity 0 s.vtk_markers.markers_actors
  · rw [htog]
    simp only [hupde]
    exact overwriteMeshPointsAux_length _ 0 s.vtk_mesh.mesh_actors

/-- A two-segment model: segment 0 owns one marker, segment 1 owns two;
flattened kinematic marker positions and per-segment mesh vertices. -/
def c2Model : SegModel :=
  { markerCounts := [1, 2],
    markerKin := [Val.pt 1 0 0, Val.pt 2 0 0, Val.pt 3 0 0],
    meshKin := [[Val.pt 1 1 1], [Val.pt 2 2 2, Val.pt 3 3 3]] }

/-- A consistent `Viz` state for `c2Model` with both segments shown. -/
def c2State : VizState :=
  { show_segment_is_on := [true, true],
    idx_markers_to_remove := [],
    markers := [Val.pt 1 0 0, Val.pt 2 0 0, Val.pt 3 0 0],
    mesh := [[Val.pt 1 1 1], [Val.pt 2 2 2, Val.pt 3 3 3]],
    vtk_markers :=
      ⟨⟨[Val.pt 1 0 0, Val.pt 2 0 0, Val.pt 3 0 0], 1⟩,
       [⟨0, Val.pt 1 0 0, 1, 1⟩, ⟨1, Val.pt 2 0 0, 1, 1⟩, ⟨2, Val.pt 3 0 0, 1, 1⟩],
       1, 1, 3⟩,
    vtk_mesh :=
      ⟨[⟨[Val.pt 1 1 1], 1⟩, ⟨[Val.pt 2 2 2, Val.pt 3 3 3], 1⟩],
       [⟨0, [Val.pt 1 1 1]⟩, ⟨1, [Val.pt 2 2 2, Val.pt 3 3 3]⟩], 2⟩ }

/-- Claim C2, witness: Hiding segment 1 of the concrete two-segment scene:
its two markers (flat indices 1 and 2) and its mesh become NaN, and
every collection keeps its size. -/
theorem c2_toggle_segments_witness :
    (toggle_segments c2Model c2State 1).markers[1]? = some Val.nan ∧
    (toggle_segments c2Model c2State 1).markers[2]? = some Val.nan ∧
    (toggle_segments c2Model c2State 1).mesh[1]? =
      some (List.replicate 2 Val.nan) ∧
    (toggle_segments c2Model c2State 1).markers.length = 3 ∧
    (toggle_segments c2Model c2State 1).vtk_markers.markers_actors.length = 3 ∧
    (toggle_segments c2Model c2State 1).vtk_mesh.mesh_actors.length = 2 := by
  have h := c2_toggle_segments c2Model c2State 1 (by decide) (by decide) (by decide)
    (by decide) (by decide) (by decide) (by decide)
  refine ⟨h.1 1 (by decide) (by decide), h.1 2 (by decide) (by decide), ?_, ?_, ?_, ?_⟩
  · have h2 := h.2.1
    simpa using h2
  · have h3 := h.2.2.1
    simpa using h3
  · have h4 := h.2.2.2.2.1
    simpa using h4
  · have h5 := h.2.2.2.2.2
    simpa using h5

end Bioviz
